import Mathlib

/-
Verification of the wavefront go-proxy driver (`cmd/wavefront-proxy/proxy.go`)
and the agent self-metrics payload builder (`agent` package).

The Go code is shallowly embedded: pure functions become Lean functions, the
process-terminating paths (`os.Exit`, `log.Fatal`, `panic`) become `Except`
errors or an explicit exit-reason component, Go `int`/`int64` arithmetic is
`Int` with explicit two's-complement wrapping where overflow is reachable,
and calls into the OS (hostname lookup, file creation, config loading,
signals) are passed in as explicit arguments.
-/

namespace GoProxy

/-! ## Models of the Go standard library pieces the driver uses -/

/-- Go `strings.Split` restricted to a one-character separator, computed on
the character list: splitting the empty string yields a single empty entry,
and every separator occurrence opens a new entry. -/
def splitChar (sep : Char) : List Char → List String
  | [] => [""]
  | c :: rest =>
    let r := splitChar sep rest
    if c = sep then "" :: r
    else match r with
      | [] => [String.mk [c]]
      | h :: t => String.mk (c :: h.data) :: t

/-- Go `strings.Split(s, sep)` for a one-character separator. -/
def goSplit (s : String) (sep : Char) : List String := splitChar sep s.data

/-- Largest value of a Go 64-bit signed `int`. -/
def maxInt64 : Int := 9223372036854775807

/-- Smallest value of a Go 64-bit signed `int`. -/
def minInt64 : Int := -9223372036854775808

/-- Two's-complement reading of `x` modulo `2 ^ 64`: the value a Go `int`
holds after an arithmetic operation whose mathematical result is `x`. -/
def wrap64 (x : Int) : Int :=
  let r := x % 18446744073709551616
  if r < 9223372036854775808 then r else r - 18446744073709551616

/-- Go `strconv.Atoi`: the parsed value paired with the `err == nil` flag.
A syntax error (empty string, a bare sign, or any non-digit character)
yields value 0 with the flag false; a syntactically valid number outside the
64-bit signed range yields the nearest bound with the flag false (Go's
`ErrRange` result keeps the clamped value); otherwise the exact value with
the flag true. -/
def atoiGo (s : String) : Int × Bool :=
  match s.data with
  | [] => (0, false)
  | c :: rest =>
    let p : Bool × List Char :=
      if c = '-' then (true, rest)
      else if c = '+' then (false, rest)
      else (false, c :: rest)
    if p.2.isEmpty then (0, false)
    else if p.2.all Char.isDigit then
      let n : Int := Int.ofNat (p.2.foldl (fun a ch => a * 10 + (ch.toNat - 48)) 0)
      let v : Int := if p.1 then -n else n
      if v > maxInt64 then (maxInt64, false)
      else if v < minInt64 then (minInt64, false)
      else (v, true)
    else (0, false)

/-! ## The agent self-metrics payload (`agent` package, `buildAgentMetrics`) -/

/-- A metric registered in the go-metrics default registry, by kind, carrying
the snapshot value the self-report path could read from it. Only `counter`
is consumed by `buildAgentMetrics`; the remaining kinds are the ones the
registry can also hold (the driver registers a `build.version` gauge). -/
inductive Metric where
  | counter (count : Int)
  | gauge (value : Int)
  | histogram
  | meter
  | timer
deriving DecidableEq

/-- The contents of `metrics.DefaultRegistry`: name/metric pairs in the order
`Registry.Each` visits them. -/
abbrev Registry := List (String × Metric)

/-- A Go value stored in the `map[string]interface` handed to `json.Marshal`
by `buildAgentMetrics`. `vint` is an `int64` counter snapshot; `vfloatNaN`
stands for the values `encoding/json` refuses to serialize, so that the
marshalling error path of the model is honest. -/
inductive GoValue where
  | vint (i : Int)
  | vfloatNaN
deriving DecidableEq

/-- Go map assignment: replace the entry when the key is already present,
otherwise add the pair at the end. -/
def mapInsert (m : List (String × GoValue)) (k : String) (v : GoValue) :
    List (String × GoValue) :=
  if m.any (fun e => e.1 = k) then m.map (fun e => if e.1 = k then (k, v) else e)
  else m ++ [(k, v)]

/-- The callback `buildAgentMetrics` hands to `DefaultRegistry.Each`: the
type switch stores `metric.Count()` under the metric name for a
`metrics.Counter` and does nothing for every other kind. -/
def agentStep (m : List (String × GoValue)) (e : String × Metric) :
    List (String × GoValue) :=
  match e.2 with
  | .counter c => mapInsert m e.1 (.vint c)
  | _ => m

/-- The `agentMetrics` map built by `buildAgentMetrics`: `DefaultRegistry.Each`
visits every registered metric and runs the type-switch callback, starting
from the empty map. -/
def agentMap (r : Registry) : List (String × GoValue) :=
  r.foldl agentStep []

/-- JSON string escaping (quote and backslash; other characters of metric
names pass through unchanged). -/
def jsonEscapeChar (c : Char) : String :=
  if c = '"' then "\\\"" else if c = '\\' then "\\\\" else String.mk [c]

/-- Escape a metric name for use as a JSON object key. -/
def jsonEscape (s : String) : String := s.data.foldl (fun a c => a ++ jsonEscapeChar c) ""

/-- Serialization of one map value. -/
def renderValue : GoValue → String
  | .vint i => toString i
  | .vfloatNaN => ""

/-- Lexicographic order on character lists, by code point — the order Go
sorts map keys in when marshalling. -/
def charListLe : List Char → List Char → Bool
  | [], _ => true
  | _ :: _, [] => false
  | a :: as, b :: bs =>
    if a.toNat < b.toNat then true
    else if b.toNat < a.toNat then false
    else charListLe as bs

/-- Lexicographic order on strings. -/
def keyLe (a b : String) : Bool := charListLe a.data b.data

/-- Insert an entry into a key-sorted entry list, keeping it sorted. -/
def insertSorted (e : String × GoValue) : List (String × GoValue) → List (String × GoValue)
  | [] => [e]
  | f :: rest => if keyLe e.1 f.1 then e :: f :: rest else f :: insertSorted e rest

/-- Sort map entries by key, as Go `json.Marshal` does for map keys. -/
def sortByKey (l : List (String × GoValue)) : List (String × GoValue) :=
  l.foldr insertSorted []

/-- Render sorted entries as the inner part of a JSON object. -/
def renderEntries (l : List (String × GoValue)) : String :=
  String.intercalate "," (l.map (fun e => "\"" ++ jsonEscape e.1 ++ "\":" ++ renderValue e.2))

/-- Go `json.Marshal` on a string-keyed map of `GoValue`: keys are emitted in
sorted order; a value the encoder does not support anywhere in the map makes
the whole call return an error (with `nil` bytes). -/
def jsonMarshal (m : List (String × GoValue)) : Except String String :=
  if m.any (fun e => e.2 = GoValue.vfloatNaN) then .error "json: unsupported value"
  else .ok ("\x7b" ++ renderEntries (sortByKey m) ++ "\x7d")

/-- `buildAgentMetrics`: build the `agentMetrics` map from the default
registry, marshal it, log — and otherwise ignore — a marshalling error, and
return the bytes, which are `nil` (here the empty string) exactly when
`Marshal` errored. No error is ever returned to the caller. -/
def buildAgentMetrics (r : Registry) : String :=
  match jsonMarshal (agentMap r) with
  | .ok b => b
  | .error _ => ""

/-- Lookup in the built map, by key. -/
def lookupMap (m : List (String × GoValue)) (k : String) : Option GoValue :=
  (m.find? (fun e => e.1 = k)).map (·.2)

/-! ## The driver (`cmd/wavefront-proxy/proxy.go`) -/

/-- The package-level flag variables of the driver after `flag.Parse`: the
configuration state startup begins from. -/
structure Flags where
  cfg : String
  token : String
  server : String
  hostname : String
  pushListenerPorts : String
  opentsdbPorts : String
  flushThreads : Int
  flushInterval : Int
  flushMaxPoints : Int
  maxBufferSize : Int
  idFile : String
  logFile : String
  pprofAddr : String
  versionFlag : Bool
deriving DecidableEq

/-- The values loaded from a proxy configuration file (`config.LoadConfig`). -/
structure ProxyConfig where
  Token : String
  Server : String
  Hostname : String
  PushListenerPorts : String
  OpenTSDBPorts : String
  FlushThreads : Int
  PushFlushInterval : Int
  PushFlushMaxPoints : Int
  PushMemoryBufferLimit : Int
  IdFile : String
  LogFile : String
  PprofAddr : String
deriving DecidableEq

/-- `parseCfg`: repoint every flag pointer at the corresponding field of the
loaded configuration, unconditionally. The `config` and `version` flags are
the only ones it leaves alone. -/
def parseCfg (c : ProxyConfig) (f : Flags) : Flags :=
  { f with
    token := c.Token
    server := c.Server
    hostname := c.Hostname
    pushListenerPorts := c.PushListenerPorts
    opentsdbPorts := c.OpenTSDBPorts
    flushThreads := c.FlushThreads
    flushInterval := c.PushFlushInterval
    flushMaxPoints := c.PushFlushMaxPoints
    maxBufferSize := c.PushMemoryBufferLimit
    idFile := c.IdFile
    logFile := c.LogFile
    pprofAddr := c.PprofAddr }

/-- The ways startup can terminate the process before the listeners run:
`os.Exit(0)` for `-version`, `os.Exit(1)` for a missing required flag,
`log.Fatal` for a config-load, hostname or port error, and the logger-setup
panic. -/
inductive ExitReason where
  | versionExit
  | configLoadError
  | missingToken
  | missingServer
  | hostnameError
  | logFileError
  | invalidPort (entry : String)
deriving DecidableEq

/-- `checkRequiredFlag`: an empty required value prints the message, prints
usage, and exits the process. -/
def checkRequiredFlag (val : String) (reason : ExitReason) : Except ExitReason Unit :=
  if val = "" then .error reason else .ok ()

/-- `checkHostname`: an empty hostname flag is replaced by the result of
`os.Hostname()`, whose failure is fatal; a non-empty flag is left unchanged.
`osHostname` stands for the outcome of the `os.Hostname()` call. -/
def checkHostname (f : Flags) (osHostname : Except Unit String) : Except ExitReason Flags :=
  if f.hostname = "" then
    match osHostname with
    | .error _ => .error .hostnameError
    | .ok h => .ok { f with hostname := h }
  else .ok f

/-- `setupLogger`: a non-empty log-file flag creates the file, panicking on
failure. `createOk` stands for the outcome of `os.Create`. -/
def setupLogger (f : Flags) (createOk : Bool) : Except ExitReason Unit :=
  if f.logFile = "" then .ok ()
  else if createOk then .ok ()
  else .error .logFileError

/-- The flag state after the optional configuration-file override inside
`checkFlags`: with a `-config` file given, `config.LoadConfig` runs (its
outcome passed in as `loadResult`; failure is fatal) and `parseCfg` replaces
the flags with the file's values; without one the flags stand. -/
def effectiveFlags (f : Flags) (loadResult : Except Unit ProxyConfig) :
    Except ExitReason Flags :=
  if f.cfg ≠ "" then
    match loadResult with
    | .error _ => .error .configLoadError
    | .ok c => .ok (parseCfg c f)
  else .ok f

/-- The checks of `checkFlags` that follow the configuration-file override:
required token, required server, hostname defaulting, log setup. -/
def checkFlagsPost (f : Flags) (osHostname : Except Unit String) (logCreateOk : Bool) :
    Except ExitReason Flags := do
  checkRequiredFlag f.token .missingToken
  checkRequiredFlag f.server .missingServer
  let f ← checkHostname f osHostname
  let _ ← setupLogger f logCreateOk
  .ok f

/-- `checkFlags`: `-version` exits immediately; otherwise the configuration
file, when given, overrides the flags, and the startup checks run on the
effective values. -/
def checkFlags (f : Flags) (loadResult : Except Unit ProxyConfig)
    (osHostname : Except Unit String) (logCreateOk : Bool) : Except ExitReason Flags :=
  if f.versionFlag then .error .versionExit
  else do
    let fe ← effectiveFlags f loadResult
    checkFlagsPost fe osHostname logCreateOk

/-- The decoder builder wired into a listener: `decoder.GraphiteBuilder` for
push-listener ports, `decoder.OpenTSDBBuilder` for OpenTSDB ports. -/
inductive DecoderBuilder where
  | graphite
  | opentsdb
deriving DecidableEq

/-- A `points.DefaultPointListener`, as configured at creation. -/
structure PointListener where
  port : Int
  builder : DecoderBuilder
deriving DecidableEq

/-- The outbound wire-format constant passed to `Listener.Start`. The driver
always passes `api.FormatGraphiteV2`; a second constructor stands for the
other wire formats of the (excluded) api package, so the choice is visible. -/
inductive WireFormat where
  | graphiteV2
  | opentsdbFormat
deriving DecidableEq

/-- The work-unit constant passed to `Listener.Start`. The driver always
passes `api.GraphiteBlockWorkUnit`; a second constructor stands for the api
package's other work units. -/
inductive WorkUnitKind where
  | graphiteBlock
  | otherWorkUnit
deriving DecidableEq

/-- The `api.WavefrontAPIService` value `main` constructs. -/
structure ApiService where
  serverURL : String
  agentID : String
  hostname : String
  token : String
  version : String
deriving DecidableEq

/-- One `listener.Start(...)` invocation as issued by `startPointListener`,
with every argument it received. -/
structure StartCall where
  listener : PointListener
  flushThreads : Int
  flushInterval : Int
  maxBufferSize : Int
  maxPointsPerFlush : Int
  format : WireFormat
  workUnit : WorkUnitKind
  service : ApiService
deriving DecidableEq

/-- `startPointListener`: start one listener with the four flag-derived
numbers, the Graphite v2 wire format, the Graphite block work unit, and the
api service. -/
def startPointListener (f : Flags) (service : ApiService) (l : PointListener) : StartCall :=
  { listener := l
    flushThreads := f.flushThreads
    flushInterval := f.flushInterval
    maxBufferSize := f.maxBufferSize
    maxPointsPerFlush := f.flushMaxPoints
    format := .graphiteV2
    workUnit := .graphiteBlock
    service := service }

/-- The loop of `startPointListeners` over the already-split port list: each
entry goes through `strconv.Atoi`; a parse error is `log.Fatal` (the process
dies with the earlier listeners already started and the rest never created);
a parsed entry creates a listener on that port with the given builder,
appends it to the package-level `listeners` slice, and starts it. -/
def startPortEntries (f : Flags) (service : ApiService) (builder : DecoderBuilder) :
    List String → List StartCall × Option ExitReason
  | [] => ([], none)
  | e :: rest =>
    if (atoiGo e).2 then
      let r := startPortEntries f service builder rest
      (startPointListener f service ⟨(atoiGo e).1, builder⟩ :: r.1, r.2)
    else ([], some (.invalidPort e))

/-- `startPointListeners`: split the comma-separated port list and start one
listener per entry. -/
def startPointListeners (f : Flags) (service : ApiService) (portsList : String)
    (builder : DecoderBuilder) : List StartCall × Option ExitReason :=
  startPortEntries f service builder (goSplit portsList ',')

/-- `startListeners`: a non-empty push-listener port list starts Graphite
listeners and a non-empty OpenTSDB port list starts OpenTSDB listeners; an
empty string for either list starts nothing for that protocol; a fatal parse
error in the push list ends the process before the OpenTSDB list is
reached. -/
def startListeners (f : Flags) (service : ApiService) : List StartCall × Option ExitReason :=
  let r1 :=
    if f.pushListenerPorts ≠ "" then
      startPointListeners f service f.pushListenerPorts .graphite
    else ([], none)
  match r1.2 with
  | some e => (r1.1, some e)
  | none =>
    let r2 :=
      if f.opentsdbPorts ≠ "" then
        startPointListeners f service f.opentsdbPorts .opentsdb
      else ([], none)
    (r1.1 ++ r2.1, r2.2)

/-- The `api.WavefrontAPIService` value `main` builds from the effective
flags, the agent id, and the build version string. -/
def mkApiService (f : Flags) (agentID ver : String) : ApiService :=
  { serverURL := f.server
    agentID := agentID
    hostname := f.hostname
    token := f.token
    version := ver }

/-- The startup path of `main` up to and including `startListeners`: run
`checkFlags`; a fatal check terminates with no listener started; otherwise
the listeners are started from the effective flags. The pair is the list of
issued `Start` calls and the fatal exit, if any. -/
def startup (f : Flags) (loadResult : Except Unit ProxyConfig)
    (osHostname : Except Unit String) (logCreateOk : Bool) (agentID ver : String) :
    List StartCall × Option ExitReason :=
  match checkFlags f loadResult osHostname logCreateOk with
  | .error e => ([], some e)
  | .ok fe => startListeners fe (mkApiService fe agentID ver)

/-- A process signal, as seen by `waitForShutdown`. -/
inductive GoSignal where
  | interrupt
  | other
deriving DecidableEq

/-- One `listener.Stop()` call. -/
structure StopCall where
  listener : PointListener
deriving DecidableEq

/-- `stopListeners`: call `Stop` on each listener in the package-level
`listeners` slice, in slice order (the order the listeners were started). -/
def stopListeners (ls : List PointListener) : List StopCall :=
  ls.map (fun l => ⟨l⟩)

/-- `waitForShutdown`, at the arrival of one signal: `os.Interrupt` stops all
listeners and then calls `os.Exit(0)`; any other signal leaves the loop
waiting, with no stop and no exit. The returned pair is the sequence of
`Stop` calls issued before the exit, and the exit code. -/
def waitForShutdown (sig : GoSignal) (ls : List PointListener) :
    Option (List StopCall × Nat) :=
  match sig with
  | .interrupt => some (stopListeners ls, 0)
  | .other => none

/-- The accumulation loop of `buildVersion`: Go `int` arithmetic, so every
multiplication and addition wraps at 64 bits; the `strconv.Atoi` error is
discarded, so a non-numeric segment contributes Atoi's 0 and an out-of-range
segment its clamped bound. -/
def buildVersionLoop : List String → Int → Int
  | [], v => v
  | s :: rest, v => buildVersionLoop rest (wrap64 (wrap64 (v * 1000) + (atoiGo s).1))

/-- `buildVersion`: split the version string on a dot, fold the segments in
base 1000, then multiply by 1e3 for a two-segment version and by 1e6 for any
other segment count, all in Go `int` arithmetic. -/
def buildVersion (v : String) : Int :=
  let s := goSplit v '.'
  let ver := buildVersionLoop s 0
  if s.length = 2 then wrap64 (ver * 1000) else wrap64 (ver * 1000000)

/-! ## The PointBuffer (modelled from the spec) -/

/-- Modelled from the spec: the PointBuffer implementation is not under
`src/` (only the driver that starts listeners is), so the component follows
§3/§4.2 of the specification: a capacity-bounded holding area for decoded
points awaiting delivery. The point type is a parameter; capacity is fixed
at creation to `maxBufferSize`. -/
structure PointBuffer (α : Type) where
  capacity : Nat
  points : List α

/-- Modelled from the spec: `tryEnqueue` is non-blocking — at capacity it
returns false and leaves the buffer unchanged; otherwise it appends the
point and returns true. -/
def tryEnqueue {α : Type} (b : PointBuffer α) (p : α) : Bool × PointBuffer α :=
  if b.capacity ≤ b.points.length then (false, b)
  else (true, { b with points := b.points ++ [p] })

/-- Modelled from the spec: `drainUpTo n` atomically removes up to `n`
points (fewer if unavailable), returning them in buffer order. -/
def drainUpTo {α : Type} (b : PointBuffer α) (n : Nat) : List α × PointBuffer α :=
  (b.points.take n, { b with points := b.points.drop n })

/-- One atomic buffer operation. The spec requires every buffer mutation to
be mutually exclusive at the point-count level, so any concurrent history of
`tryEnqueue` producers and `drainUpTo` consumers is observably a sequence of
these atomic operations, and every observable instant is the state after
some such sequence. -/
inductive BufOp (α : Type) where
  | enqueue (p : α)
  | drain (n : Nat)

/-- Apply one atomic buffer operation. -/
def stepOp {α : Type} (b : PointBuffer α) : BufOp α → PointBuffer α
  | .enqueue p => (tryEnqueue b p).2
  | .drain n => (drainUpTo b n).2

/-- Run a sequence of atomic buffer operations (one interleaving of
concurrent producers and consumers). -/
def runOps {α : Type} (b : PointBuffer α) : List (BufOp α) → PointBuffer α
  | [] => b
  | op :: rest => runOps (stepOp b op) rest

/-! ## Claim-side definitions -/

/-- The claims' reading of a "decimal integer": an optional sign followed by
at least one decimal digit, with no bound on magnitude. -/
def specDecimalInteger (s : String) : Bool :=
  match s.data with
  | [] => false
  | c :: rest =>
    let ds := if c = '-' || c = '+' then rest else c :: rest
    !ds.isEmpty && ds.all Char.isDigit

/-- The claims' reading of a segment "parsed as a decimal integer with any
non-numeric segment contributing 0": the exact mathematical value, with no
range clamping. -/
def specSegVal (s : String) : Int :=
  match s.data with
  | [] => 0
  | c :: rest =>
    let p : Bool × List Char :=
      if c = '-' then (true, rest)
      else if c = '+' then (false, rest)
      else (false, c :: rest)
    if !p.2.isEmpty && p.2.all Char.isDigit then
      let n : Int := Int.ofNat (p.2.foldl (fun a ch => a * 10 + (ch.toNat - 48)) 0)
      if p.1 then -n else n
    else 0

/-- `buildVersion` as claim C9 states it: split on a dot, each segment its
exact decimal value (non-numeric segments contributing 0), accumulated in
base 1000 in exact integer arithmetic, the result multiplied by 1000 for two
segments and by 1000000 otherwise. -/
def specBuildVersion (v : String) : Int :=
  let s := goSplit v '.'
  let ver := s.foldl (fun a seg => a * 1000 + specSegVal seg) 0
  if s.length = 2 then ver * 1000 else ver * 1000000

/-- The amended C9 accumulation: Atoi's (possibly clamped) segment values
folded in base 1000 in exact integer arithmetic, with the final
two-or-three-segment multiplier; `buildVersion` is its 64-bit wrap. -/
def atoiVersionZ (v : String) : Int :=
  let s := goSplit v '.'
  let ver := s.foldl (fun a seg => a * 1000 + (atoiGo seg).1) 0
  if s.length = 2 then ver * 1000 else ver * 1000000

/-- Abbreviation: a port-list entry `strconv.Atoi` accepts. -/
def portOk (e : String) : Bool := (atoiGo e).2

/-- Claim-side description of port-list startup (the amended C3): for each
non-empty comma-separated list, the longest all-parseable leading run of
entries is started — one listener per parsed entry, in list order — and the
first entry `strconv.Atoi` rejects, if any, is fatal; the OpenTSDB list is
processed only when the push list produced no fatal entry. -/
def specStartPorts (f : Flags) (sv : ApiService) (builder : DecoderBuilder)
    (portsList : String) : List StartCall × Option ExitReason :=
  let entries := goSplit portsList ','
  ((entries.takeWhile portOk).map
      (fun e => startPointListener f sv ⟨(atoiGo e).1, builder⟩),
   match entries.dropWhile portOk with
   | [] => none
   | e :: _ => some (.invalidPort e))

/-- Claim-side description of `startListeners` in terms of
`specStartPorts`. -/
def specStartListeners (f : Flags) (sv : ApiService) : List StartCall × Option ExitReason :=
  let r1 :=
    if f.pushListenerPorts ≠ "" then specStartPorts f sv .graphite f.pushListenerPorts
    else ([], none)
  match r1.2 with
  | some e => (r1.1, some e)
  | none =>
    let r2 :=
      if f.opentsdbPorts ≠ "" then specStartPorts f sv .opentsdb f.opentsdbPorts
      else ([], none)
    (r1.1 ++ r2.1, r2.2)

end GoProxy

namespace GoProxy

/-! ## PointBuffer capacity invariant (C2) -/

/-- One atomic step preserves the capacity bound and the capacity itself. -/
theorem stepOp_length {α : Type} (b : PointBuffer α) (op : BufOp α)
    (h : b.points.length ≤ b.capacity) :
    (stepOp b op).points.length ≤ b.capacity ∧ (stepOp b op).capacity = b.capacity := by
  cases op with
  | enqueue p =>
    by_cases hc : b.capacity ≤ b.points.length
    · have hstep : stepOp b (.enqueue p) = b := by simp [stepOp, tryEnqueue, hc]
      rw [hstep]
      exact ⟨h, rfl⟩
    · have hstep : stepOp b (.enqueue p) = { b with points := b.points ++ [p] } := by
        simp [stepOp, tryEnqueue, hc]
      rw [hstep]
      refine ⟨?_, rfl⟩
      show (b.points ++ [p]).length ≤ b.capacity
      simp only [List.length_append, List.length_cons, List.length_nil]
      omega
  | drain n =>
    have hstep : stepOp b (.drain n) = { b with points := b.points.drop n } := rfl
    rw [hstep]
    refine ⟨?_, rfl⟩
    show (b.points.drop n).length ≤ b.capacity
    simp only [List.length_drop]
    omega

/-- C2: for every buffer whose size is within its capacity (in particular a
freshly created empty buffer of capacity `maxBufferSize`) and every sequence
of atomic `tryEnqueue` / `drainUpTo` operations — i.e. every interleaving of
concurrent producers and consumers, buffer mutation being mutually exclusive
— the number of points held never exceeds the capacity, which itself never
changes. Every observable instant is the state after some such sequence. -/
theorem pointBuffer_capacity_invariant {α : Type} (ops : List (BufOp α)) (b : PointBuffer α)
    (h : b.points.length ≤ b.capacity) :
    (runOps b ops).capacity = b.capacity ∧ (runOps b ops).points.length ≤ b.capacity := by
  induction ops generalizing b with
  | nil => exact ⟨rfl, h⟩
  | cons op rest ih =>
    have hs := stepOp_length b op h
    obtain ⟨hc, hl⟩ := ih (stepOp b op) (hs.2 ▸ hs.1)
    simp only [runOps]
    exact ⟨hc.trans hs.2, hs.2 ▸ hl⟩

/-- Witness for C2 at a concrete buffer of capacity 2 and a concrete
interleaving that tries to overfill it. -/
theorem pointBuffer_capacity_invariant_witness :
    (([] : List Nat).length ≤ 2) ∧
    ((runOps (⟨2, []⟩ : PointBuffer Nat)
        [BufOp.enqueue 1, BufOp.enqueue 2, BufOp.enqueue 3, BufOp.drain 1,
         BufOp.enqueue 4]).capacity = 2 ∧
     (runOps (⟨2, []⟩ : PointBuffer Nat)
        [BufOp.enqueue 1, BufOp.enqueue 2, BufOp.enqueue 3, BufOp.drain 1,
         BufOp.enqueue 4]).points.length ≤ 2) :=
  ⟨by decide, pointBuffer_capacity_invariant _ _ (by decide)⟩

/-! ## buildVersion (C9) -/

/-- Wrapping does not change the residue modulo `2 ^ 64`. -/
theorem wrap64_emod (x : Int) :
    wrap64 x % 18446744073709551616 = x % 18446744073709551616 := by
  unfold wrap64
  dsimp only
  split <;> omega

/-- Equal residues modulo `2 ^ 64` wrap to the same value. -/
theorem wrap64_congr {x y : Int}
    (h : x % 18446744073709551616 = y % 18446744073709551616) : wrap64 x = wrap64 y := by
  unfold wrap64
  dsimp only
  rw [h]

/-- A wrapped multiply-accumulate step equals the wrap of the exact step. -/
theorem wrap64_mul_add (v k a : Int) :
    wrap64 (wrap64 (wrap64 v * k) + a) = wrap64 (v * k + a) := by
  apply wrap64_congr
  rw [Int.add_emod (wrap64 (wrap64 v * k)) a, wrap64_emod (wrap64 v * k),
    Int.mul_emod (wrap64 v) k, wrap64_emod v, ← Int.mul_emod, ← Int.add_emod]

/-- A wrapped final multiplication equals the wrap of the exact product. -/
theorem wrap64_mul (m k : Int) : wrap64 (wrap64 m * k) = wrap64 (m * k) := by
  apply wrap64_congr
  rw [Int.mul_emod (wrap64 m) k, wrap64_emod m, ← Int.mul_emod]

/-- A value already inside the signed 64-bit range wraps to itself. -/
theorem wrap64_small (x : Int) (h1 : -9223372036854775808 ≤ x)
    (h2 : x < 9223372036854775808) : wrap64 x = x := by
  unfold wrap64
  dsimp only
  split <;> omega

/-- The wrapping accumulation loop computes the wrap of the exact fold. -/
theorem buildVersionLoop_wrap (l : List String) (v : Int) :
    buildVersionLoop l (wrap64 v) =
      wrap64 (l.foldl (fun a seg => a * 1000 + (atoiGo seg).1) v) := by
  induction l generalizing v with
  | nil => rfl
  | cons s rest ih =>
    show buildVersionLoop rest (wrap64 (wrap64 (wrap64 v * 1000) + (atoiGo s).1)) = _
    rw [wrap64_mul_add]
    exact ih (v * 1000 + (atoiGo s).1)

/-- The wrapping accumulation loop from 0. -/
theorem buildVersionLoop_zero (l : List String) :
    buildVersionLoop l 0 = wrap64 (l.foldl (fun a seg => a * 1000 + (atoiGo seg).1) 0) := by
  have h := buildVersionLoop_wrap l 0
  rwa [show wrap64 (0 : Int) = 0 from by decide] at h

/-- `buildVersion` is the 64-bit wrap of the exact Atoi-valued formula. -/
theorem buildVersion_eq_wrap (v : String) : buildVersion v = wrap64 (atoiVersionZ v) := by
  unfold buildVersion atoiVersionZ
  dsimp only
  rw [buildVersionLoop_zero, apply_ite wrap64]
  split
  · exact wrap64_mul _ 1000
  · exact wrap64_mul _ 1000000

/-- C9 (amended): `buildVersion` is total and deterministic; it splits on
dots, folds the `strconv.Atoi` value of each segment (a non-numeric segment
contributing 0, an out-of-range one its clamped int64 bound) in base 1000,
and multiplies by 1000 for exactly two segments and by 1000000 otherwise,
the whole in 64-bit two's-complement arithmetic; whenever that exact
accumulated value lies inside the signed 64-bit range the stated formula is
exact — so 'a.b' yields (1000*a+b)*1000 and 'a.b.0' yields
(1000*(1000*a+b))*1000000 for in-range versions. -/
theorem buildVersion_spec (v : String) :
    buildVersion v = wrap64 (atoiVersionZ v) ∧
    (-9223372036854775808 ≤ atoiVersionZ v → atoiVersionZ v < 9223372036854775808 →
      buildVersion v = atoiVersionZ v) := by
  refine ⟨buildVersion_eq_wrap v, fun h1 h2 => ?_⟩
  rw [buildVersion_eq_wrap v, wrap64_small _ h1 h2]

/-- Witness for C9 (amended) at the two-segment version "3.24": the encoding
is (1000*3+24)*1000. -/
theorem buildVersion_spec_witness :
    (-9223372036854775808 ≤ atoiVersionZ "3.24" ∧
      atoiVersionZ "3.24" < 9223372036854775808) ∧
    buildVersion "3.24" = atoiVersionZ "3.24" ∧ atoiVersionZ "3.24" = 3024000 :=
  ⟨by decide, (buildVersion_spec "3.24").2 (by decide) (by decide), by decide⟩

/-- C9 counterexample: on the one-segment version string
"9300000000000000000" — a decimal integer above the int64 range — the code
clamps the segment to 9223372036854775807 and the final multiplication by
1000000 wraps, producing -1000000, while the claim's exact formula demands
9300000000000000000000000; so the claim as stated is false. -/
theorem buildVersion_counterexample :
    buildVersion "9300000000000000000" = -1000000 ∧
    specBuildVersion "9300000000000000000" = 9300000000000000000000000 ∧
    buildVersion "9300000000000000000" ≠ specBuildVersion "9300000000000000000" := by
  refine ⟨by decide, by decide, by decide⟩

end GoProxy

namespace GoProxy

/-! ## Configuration-file override (C6) -/

/-- C6: `parseCfg` makes every configurable parameter — token, server URL,
hostname, both port lists, flush thread count, flush interval, max points
per flush, buffer limit, id file, log file, pprof address — take the value
loaded from the configuration file, for every prior flag state and every
file content, empty file values included; and when a configuration file is
supplied (`-config` non-empty, load successful, no `-version` exit),
`checkFlags` continues on exactly these overridden flags. -/
theorem parseCfg_overrides (f : Flags) (c : ProxyConfig) (osh : Except Unit String)
    (lg : Bool) :
    (parseCfg c f).token = c.Token ∧
    (parseCfg c f).server = c.Server ∧
    (parseCfg c f).hostname = c.Hostname ∧
    (parseCfg c f).pushListenerPorts = c.PushListenerPorts ∧
    (parseCfg c f).opentsdbPorts = c.OpenTSDBPorts ∧
    (parseCfg c f).flushThreads = c.FlushThreads ∧
    (parseCfg c f).flushInterval = c.PushFlushInterval ∧
    (parseCfg c f).flushMaxPoints = c.PushFlushMaxPoints ∧
    (parseCfg c f).maxBufferSize = c.PushMemoryBufferLimit ∧
    (parseCfg c f).idFile = c.IdFile ∧
    (parseCfg c f).logFile = c.LogFile ∧
    (parseCfg c f).pprofAddr = c.PprofAddr ∧
    (f.cfg ≠ "" → effectiveFlags f (Except.ok c) = Except.ok (parseCfg c f)) ∧
    (f.cfg ≠ "" → f.versionFlag = false →
      checkFlags f (Except.ok c) osh lg = checkFlagsPost (parseCfg c f) osh lg) := by
  refine ⟨rfl, rfl, rfl, rfl, rfl, rfl, rfl, rfl, rfl, rfl, rfl, rfl, ?_, ?_⟩
  · intro hcfg
    simp [effectiveFlags, hcfg]
  · intro hcfg hver
    simp [checkFlags, hver, effectiveFlags, hcfg]
    rfl

/-- A flag state in which every overridable field is non-empty / non-default,
to exhibit the override. -/
def flagsBefore : Flags :=
  { cfg := "proxy.cfg"
    token := "cli-token"
    server := "cli-server"
    hostname := "cli-host"
    pushListenerPorts := "2878"
    opentsdbPorts := "4242"
    flushThreads := 2
    flushInterval := 1000
    flushMaxPoints := 40000
    maxBufferSize := 100000
    idFile := ".wavefront_id"
    logFile := "cli.log"
    pprofAddr := "cli:6060"
    versionFlag := false }

/-- A configuration file whose token, hostname, OpenTSDB port list, log file
and pprof address are empty, to exhibit that even empty file values replace
the flags. -/
def cfgLoaded : ProxyConfig :=
  { Token := ""
    Server := "file-server"
    Hostname := ""
    PushListenerPorts := "3878"
    OpenTSDBPorts := ""
    FlushThreads := 8
    PushFlushInterval := 5000
    PushFlushMaxPoints := 20000
    PushMemoryBufferLimit := 640000
    IdFile := "id.file"
    LogFile := ""
    PprofAddr := "" }

/-- Witness for C6 at a concrete flag state and a concrete loaded file with
empty values. -/
theorem parseCfg_overrides_witness :
    (flagsBefore.cfg ≠ "" ∧ flagsBefore.versionFlag = false) ∧
    ((parseCfg cfgLoaded flagsBefore).token = cfgLoaded.Token ∧
     (parseCfg cfgLoaded flagsBefore).hostname = cfgLoaded.Hostname ∧
     (parseCfg cfgLoaded flagsBefore).opentsdbPorts = cfgLoaded.OpenTSDBPorts ∧
     effectiveFlags flagsBefore (Except.ok cfgLoaded) =
       Except.ok (parseCfg cfgLoaded flagsBefore) ∧
     checkFlags flagsBefore (Except.ok cfgLoaded) (Except.ok "machine") true =
       checkFlagsPost (parseCfg cfgLoaded flagsBefore) (Except.ok "machine") true) := by
  obtain ⟨h1, h2, h3, h4, h5, h6, h7, h8, h9, h10, h11, h12, h13, h14⟩ :=
    parseCfg_overrides flagsBefore cfgLoaded (Except.ok "machine") true
  exact ⟨⟨by decide, by decide⟩, h1, h3, h5, h13 (by decide), h14 (by decide) (by decide)⟩

/-! ## Shutdown on interrupt (C8) -/

/-- C8: when an interrupt signal arrives, `waitForShutdown` invokes `Stop`
on every listener in the package-level `listeners` slice — the listeners in
the order they were started — exactly once each, before calling
`os.Exit(0)`; the projection identity shows the stop sequence is exactly the
started-listener sequence, so none is skipped or repeated. -/
theorem interrupt_stops_all (sig : GoSignal) (ls : List PointListener)
    (hsig : sig = GoSignal.interrupt) :
    waitForShutdown sig ls = some (stopListeners ls, 0) ∧
    (stopListeners ls).map StopCall.listener = ls ∧
    ∀ l : PointListener,
      ((stopListeners ls).filter (fun sc => sc.listener = l)).length =
        (ls.filter (fun x => x = l)).length := by
  subst hsig
  refine ⟨rfl, ?_, ?_⟩
  · simp [stopListeners, List.map_map]
    exact List.map_id ls
  · intro l
    induction ls with
    | nil => rfl
    | cons x rest ih =>
      simp only [stopListeners, List.map_cons, List.filter_cons] at ih ⊢
      by_cases hx : x = l
      · simp only [hx]
        simp [ih]
      · simp only [show ((⟨x⟩ : StopCall).listener = l) = False by simp [hx],
          show (x = l) = False by simp [hx]]
        simpa using ih

/-- Two started listeners for the C8 witness. -/
def startedPair : List PointListener :=
  [⟨2878, DecoderBuilder.graphite⟩, ⟨4242, DecoderBuilder.opentsdb⟩]

/-- Witness for C8 at a concrete interrupt and two started listeners. -/
theorem interrupt_stops_all_witness :
    (GoSignal.interrupt = GoSignal.interrupt) ∧
    (waitForShutdown GoSignal.interrupt startedPair = some (stopListeners startedPair, 0) ∧
     (stopListeners startedPair).map StopCall.listener = startedPair ∧
     ∀ l : PointListener,
       ((stopListeners startedPair).filter (fun sc => sc.listener = l)).length =
         (startedPair.filter (fun x => x = l)).length) :=
  ⟨rfl, interrupt_stops_all GoSignal.interrupt startedPair rfl⟩

/-! ## Hostname defaulting (C10) -/

/-- C10: an empty configured hostname is replaced by the operating-system
hostname — the value then carried into the `WavefrontAPIService` used for
the agent and for delivery — with a failing OS lookup fatal to the process;
a non-empty configured hostname is left unchanged. -/
theorem checkHostname_spec (f : Flags) (osh : Except Unit String) (aid ver : String) :
    (f.hostname = "" → ∀ h : String, osh = Except.ok h →
      checkHostname f osh = Except.ok { f with hostname := h } ∧
      (mkApiService { f with hostname := h } aid ver).hostname = h) ∧
    (f.hostname = "" → osh = Except.error () →
      checkHostname f osh = Except.error ExitReason.hostnameError) ∧
    (f.hostname ≠ "" → checkHostname f osh = Except.ok f) := by
  refine ⟨?_, ?_, ?_⟩
  · intro he h hk
    subst hk
    exact ⟨by simp [checkHostname, he], rfl⟩
  · intro he hk
    subst hk
    simp [checkHostname, he]
  · intro hne
    simp [checkHostname, hne]

/-- A flag state with an empty hostname for the C10 witness. -/
def flagsNoHost : Flags :=
  { cfg := ""
    token := "t"
    server := "s"
    hostname := ""
    pushListenerPorts := "2878"
    opentsdbPorts := "4242"
    flushThreads := 2
    flushInterval := 1000
    flushMaxPoints := 40000
    maxBufferSize := 100000
    idFile := ".wavefront_id"
    logFile := ""
    pprofAddr := ""
    versionFlag := false }

/-- Witness for C10: with an empty hostname flag the OS hostname becomes the
effective hostname of the api service. -/
theorem checkHostname_spec_witness :
    (flagsNoHost.hostname = "" ∧
      (Except.ok "machine" : Except Unit String) = Except.ok "machine") ∧
    (checkHostname flagsNoHost (Except.ok "machine") =
      Except.ok { flagsNoHost with hostname := "machine" } ∧
     (mkApiService { flagsNoHost with hostname := "machine" } "aid" "0.1").hostname =
      "machine") :=
  ⟨⟨rfl, rfl⟩, (checkHostname_spec flagsNoHost (Except.ok "machine") "aid" "0.1").1 rfl
    "machine" rfl⟩

end GoProxy

namespace GoProxy

/-! ## The agent self-metrics payload is exactly the counters (C1, C7) -/

/-- The entry a registry pair contributes to the agent map: its count for a
counter, nothing for any other kind. -/
def counterEntry (e : String × Metric) : Option (String × GoValue) :=
  match e.2 with
  | .counter c => some (e.1, GoValue.vint c)
  | _ => none

/-- Inserting a key no existing entry carries appends the pair. -/
theorem mapInsert_fresh (m : List (String × GoValue)) (k : String) (v : GoValue)
    (h : ∀ e ∈ m, e.1 ≠ k) : mapInsert m k v = m ++ [(k, v)] := by
  unfold mapInsert
  rw [if_neg]
  simp only [List.any_eq_true, decide_eq_true_eq, not_exists, not_and]
  exact h

/-- The `Each` fold over a registry with distinct names, from any
accumulator whose keys the registry does not mention, appends exactly the
counter entries. -/
theorem agentMap_fold (r : Registry) :
    ∀ acc : List (String × GoValue),
      (r.map Prod.fst).Nodup →
      (∀ k, k ∈ acc.map Prod.fst → k ∉ r.map Prod.fst) →
      r.foldl agentStep acc = acc ++ r.filterMap counterEntry := by
  induction r with
  | nil => intro acc _ _; simp
  | cons e rest ih =>
    intro acc hnd hdisj
    obtain ⟨k0, m0⟩ := e
    simp only [List.map_cons, List.nodup_cons] at hnd
    obtain ⟨hk0, hnd'⟩ := hnd
    cases m0 with
    | counter c =>
      show List.foldl agentStep (mapInsert acc k0 (.vint c)) rest =
        acc ++ List.filterMap counterEntry ((k0, Metric.counter c) :: rest)
      have hfresh : ∀ e ∈ acc, e.1 ≠ k0 := by
        intro e he heq
        have hmem : e.1 ∈ acc.map Prod.fst := List.mem_map_of_mem Prod.fst he
        have := hdisj e.1 hmem
        simp [heq] at this
      rw [mapInsert_fresh acc k0 _ hfresh]
      have hdisj' : ∀ k, k ∈ (acc ++ [(k0, GoValue.vint c)]).map Prod.fst →
          k ∉ rest.map Prod.fst := by
        intro k hk
        simp only [List.map_append, List.mem_append, List.map_cons, List.map_nil,
          List.mem_cons, List.not_mem_nil, or_false] at hk
        rcases hk with hk | hk
        · have := hdisj k hk
          simp only [List.map_cons, List.mem_cons, not_or] at this
          exact this.2
        · subst hk; exact hk0
      rw [ih (acc ++ [(k0, GoValue.vint c)]) hnd' hdisj']
      simp [counterEntry]
    | gauge g =>
      show List.foldl agentStep acc rest =
        acc ++ List.filterMap counterEntry ((k0, Metric.gauge g) :: rest)
      have hdisj' : ∀ k, k ∈ acc.map Prod.fst → k ∉ rest.map Prod.fst := by
        intro k hk
        have := hdisj k hk
        simp only [List.map_cons, List.mem_cons, not_or] at this
        exact this.2
      rw [ih acc hnd' hdisj']
      simp [counterEntry]
    | histogram =>
      show List.foldl agentStep acc rest =
        acc ++ List.filterMap counterEntry ((k0, Metric.histogram) :: rest)
      have hdisj' : ∀ k, k ∈ acc.map Prod.fst → k ∉ rest.map Prod.fst := by
        intro k hk
        have := hdisj k hk
        simp only [List.map_cons, List.mem_cons, not_or] at this
        exact this.2
      rw [ih acc hnd' hdisj']
      simp [counterEntry]
    | meter =>
      show List.foldl agentStep acc rest =
        acc ++ List.filterMap counterEntry ((k0, Metric.meter) :: rest)
      have hdisj' : ∀ k, k ∈ acc.map Prod.fst → k ∉ rest.map Prod.fst := by
        intro k hk
        have := hdisj k hk
        simp only [List.map_cons, List.mem_cons, not_or] at this
        exact this.2
      rw [ih acc hnd' hdisj']
      simp [counterEntry]
    | timer =>
      show List.foldl agentStep acc rest =
        acc ++ List.filterMap counterEntry ((k0, Metric.timer) :: rest)
      have hdisj' : ∀ k, k ∈ acc.map Prod.fst → k ∉ rest.map Prod.fst := by
        intro k hk
        have := hdisj k hk
        simp only [List.map_cons, List.mem_cons, not_or] at this
        exact this.2
      rw [ih acc hnd' hdisj']
      simp [counterEntry]

/-- With distinct registry names, the built map is the counter entries. -/
theorem agentMap_eq_filterMap (r : Registry) (hnd : (r.map Prod.fst).Nodup) :
    agentMap r = r.filterMap counterEntry := by
  have h := agentMap_fold r [] hnd (by simp)
  simpa [agentMap] using h

/-- Computation rule for `lookupMap` on a cons cell. -/
theorem lookupMap_cons (k0 : String) (v : GoValue) (t : List (String × GoValue))
    (name : String) :
    lookupMap ((k0, v) :: t) name = if k0 = name then some v else lookupMap t name := by
  unfold lookupMap
  by_cases h : k0 = name
  · simp [List.find?_cons, h]
  · simp [List.find?_cons, h]

/-- With distinct keys, two registry entries sharing a name are equal. -/
theorem nodup_keys_unique {l : Registry} (hnd : (l.map Prod.fst).Nodup)
    {k : String} {a b : Metric} (ha : (k, a) ∈ l) (hb : (k, b) ∈ l) : a = b := by
  induction l with
  | nil => cases ha
  | cons e rest ih =>
    simp only [List.map_cons, List.nodup_cons] at hnd
    rcases List.mem_cons.mp ha with h1 | h1 <;> rcases List.mem_cons.mp hb with h2 | h2
    · exact (Prod.ext_iff.mp (h1.trans h2.symm)).2
    · exfalso
      apply hnd.1
      rw [← h1]
      exact List.mem_map.mpr ⟨(k, b), h2, rfl⟩
    · exfalso
      apply hnd.1
      rw [← h2]
      exact List.mem_map.mpr ⟨(k, a), h1, rfl⟩
    · exact ih hnd.2 h1 h2

/-- Looking a name up among the counter entries finds exactly the counters
of the registry, given distinct names. -/
theorem lookup_filterMap_counter (r : Registry) (hnd : (r.map Prod.fst).Nodup)
    (name : String) (c : Int) :
    lookupMap (r.filterMap counterEntry) name = some (GoValue.vint c) ↔
      (name, Metric.counter c) ∈ r := by
  induction r with
  | nil => simp [lookupMap]
  | cons e rest ih =>
    obtain ⟨k0, m0⟩ := e
    simp only [List.map_cons, List.nodup_cons] at hnd
    obtain ⟨hk0, hnd'⟩ := hnd
    cases m0 with
    | counter c0 =>
      rw [show List.filterMap counterEntry ((k0, Metric.counter c0) :: rest) =
        (k0, GoValue.vint c0) :: List.filterMap counterEntry rest from by
          simp [List.filterMap_cons, counterEntry]]
      rw [lookupMap_cons]
      by_cases hkn : k0 = name
      · subst hkn
        simp only [if_pos rfl]
        constructor
        · intro hv
          have hc : c0 = c := by cases hv; rfl
          subst hc
          exact List.mem_cons_self _ _
        · intro hm
          rcases List.mem_cons.mp hm with h | h
          · cases h
            rfl
          · exfalso
            apply hk0
            exact List.mem_map_of_mem Prod.fst h
      · rw [if_neg hkn, ih hnd']
        constructor
        · exact fun h => List.mem_cons_of_mem _ h
        · intro hm
          rcases List.mem_cons.mp hm with h | h
          · exfalso; apply hkn; cases h; rfl
          · exact h
    | gauge g =>
      rw [show List.filterMap counterEntry ((k0, Metric.gauge g) :: rest) =
        List.filterMap counterEntry rest from by simp [List.filterMap_cons, counterEntry]]
      rw [ih hnd']
      constructor
      · exact fun h => List.mem_cons_of_mem _ h
      · intro hm
        rcases List.mem_cons.mp hm with h | h
        · exact absurd (congrArg Prod.snd h) (by simp)
        · exact h
    | histogram =>
      rw [show List.filterMap counterEntry ((k0, Metric.histogram) :: rest) =
        List.filterMap counterEntry rest from by simp [List.filterMap_cons, counterEntry]]
      rw [ih hnd']
      constructor
      · exact fun h => List.mem_cons_of_mem _ h
      · intro hm
        rcases List.mem_cons.mp hm with h | h
        · exact absurd (congrArg Prod.snd h) (by simp)
        · exact h
    | meter =>
      rw [show List.filterMap counterEntry ((k0, Metric.meter) :: rest) =
        List.filterMap counterEntry rest from by simp [List.filterMap_cons, counterEntry]]
      rw [ih hnd']
      constructor
      · exact fun h => List.mem_cons_of_mem _ h
      · intro hm
        rcases List.mem_cons.mp hm with h | h
        · exact absurd (congrArg Prod.snd h) (by simp)
        · exact h
    | timer =>
      rw [show List.filterMap counterEntry ((k0, Metric.timer) :: rest) =
        List.filterMap counterEntry rest from by simp [List.filterMap_cons, counterEntry]]
      rw [ih hnd']
      constructor
      · exact fun h => List.mem_cons_of_mem _ h
      · intro hm
        rcases List.mem_cons.mp hm with h | h
        · exact absurd (congrArg Prod.snd h) (by simp)
        · exact h

/-- Every value the `Each` fold ever stores is an `int64` count. -/
theorem agentFold_values_vint (r : Registry) :
    ∀ acc : List (String × GoValue),
      (∀ e ∈ acc, ∃ c, e.2 = GoValue.vint c) →
      ∀ e ∈ r.foldl agentStep acc, ∃ c, e.2 = GoValue.vint c := by
  induction r with
  | nil => intro acc hacc; simpa using hacc
  | cons x rest ih =>
    intro acc hacc
    simp only [List.foldl_cons]
    apply ih
    intro e he
    obtain ⟨k0, m0⟩ := x
    cases m0 with
    | counter c =>
      have he' : e ∈ mapInsert acc k0 (.vint c) := he
      unfold mapInsert at he'
      split at he'
      · rw [List.mem_map] at he'
        obtain ⟨e', he', heq⟩ := he'
        by_cases h : e'.1 = k0
        · rw [← heq]
          simp [h]
        · rw [← heq]
          simp only [h, if_false]
          exact hacc e' he'
      · rw [List.mem_append] at he'
        rcases he' with h | h
        · exact hacc e h
        · simp only [List.mem_singleton] at h
          rw [h]
          exact ⟨c, rfl⟩
    | gauge g => exact hacc e he
    | histogram => exact hacc e he
    | meter => exact hacc e he
    | timer => exact hacc e he

/-- Every value of the built agent map is an `int64` count. -/
theorem agentMap_values_vint (r : Registry) :
    ∀ e ∈ agentMap r, ∃ c, e.2 = GoValue.vint c :=
  agentFold_values_vint r [] (by simp)

/-- Marshalling the agent map always succeeds: every stored value is a
count, so the unsupported-value error of the encoder is unreachable. -/
theorem jsonMarshal_agentMap_ok (r : Registry) :
    jsonMarshal (agentMap r) =
      Except.ok ("\x7b" ++ renderEntries (sortByKey (agentMap r)) ++ "\x7d") := by
  unfold jsonMarshal
  rw [if_neg]
  intro hany
  rw [List.any_eq_true] at hany
  obtain ⟨e, he, hnan⟩ := hany
  obtain ⟨c, hc⟩ := agentMap_values_vint r e he
  rw [hc] at hnan
  simp at hnan

/-- C1: for every registry with distinct metric names, the self-report
payload built by `buildAgentMetrics` is exactly the JSON serialization of
the name-to-count map, and that map holds every registered Counter under
its name with its Count value and nothing else: a lookup yields a count iff
the registry holds that counter, every stored value comes from a registered
counter, and every metric of any other kind — the `build.version` gauge
among them — is absent. -/
theorem buildAgentMetrics_exact (r : Registry) (hnd : (r.map Prod.fst).Nodup) :
    buildAgentMetrics r = "\x7b" ++ renderEntries (sortByKey (agentMap r)) ++ "\x7d" ∧
    (∀ name c, lookupMap (agentMap r) name = some (GoValue.vint c) ↔
      (name, Metric.counter c) ∈ r) ∧
    (∀ name v, lookupMap (agentMap r) name = some v →
      ∃ c, v = GoValue.vint c ∧ (name, Metric.counter c) ∈ r) ∧
    (∀ name m, (name, m) ∈ r → (∀ c, m ≠ Metric.counter c) →
      lookupMap (agentMap r) name = none) := by
  have hchar : ∀ name c, lookupMap (agentMap r) name = some (GoValue.vint c) ↔
      (name, Metric.counter c) ∈ r := by
    intro name c
    rw [agentMap_eq_filterMap r hnd]
    exact lookup_filterMap_counter r hnd name c
  refine ⟨?_, hchar, ?_, ?_⟩
  · unfold buildAgentMetrics
    rw [jsonMarshal_agentMap_ok r]
  · intro name v hv
    have hex : ∃ e ∈ agentMap r, e.2 = v := by
      unfold lookupMap at hv
      obtain ⟨e, hfind⟩ := Option.map_eq_some'.mp hv
      exact ⟨e, List.mem_of_find?_eq_some hfind.1, hfind.2⟩
    obtain ⟨e, he, hev⟩ := hex
    obtain ⟨c, hc⟩ := agentMap_values_vint r e he
    refine ⟨c, by rw [← hev, hc], ?_⟩
    rw [← hchar name c, hv, ← hev, hc]
  · intro name m hm hnc
    cases hl : lookupMap (agentMap r) name with
    | none => rfl
    | some v =>
      exfalso
      have hex : ∃ e ∈ agentMap r, e.2 = v := by
        unfold lookupMap at hl
        obtain ⟨e, hfind⟩ := Option.map_eq_some'.mp hl
        exact ⟨e, List.mem_of_find?_eq_some hfind.1, hfind.2⟩
      obtain ⟨e, he, hev⟩ := hex
      obtain ⟨c, hc⟩ := agentMap_values_vint r e he
      have hin : (name, Metric.counter c) ∈ r := by
        rw [← hchar name c, hl, ← hev, hc]
      exact hnc c (nodup_keys_unique hnd hm hin)

/-- A concrete registry holding two counters, the `build.version` gauge and
a timer. -/
def sampleRegistry : Registry :=
  [("points.received", Metric.counter 5),
   ("build.version", Metric.gauge 3024000),
   ("points.dropped", Metric.counter 0),
   ("decode.latency", Metric.timer)]

/-- Witness for C1 at the concrete registry: the payload carries exactly the
two counters (gauge and timer omitted), in sorted key order. -/
theorem buildAgentMetrics_exact_witness :
    (sampleRegistry.map Prod.fst).Nodup ∧
    (buildAgentMetrics sampleRegistry =
        "\x7b" ++ renderEntries (sortByKey (agentMap sampleRegistry)) ++ "\x7d" ∧
     (∀ name c, lookupMap (agentMap sampleRegistry) name = some (GoValue.vint c) ↔
        (name, Metric.counter c) ∈ sampleRegistry) ∧
     (∀ name v, lookupMap (agentMap sampleRegistry) name = some v →
        ∃ c, v = GoValue.vint c ∧ (name, Metric.counter c) ∈ sampleRegistry) ∧
     (∀ name m, (name, m) ∈ sampleRegistry → (∀ c, m ≠ Metric.counter c) →
        lookupMap (agentMap sampleRegistry) name = none)) ∧
    buildAgentMetrics sampleRegistry =
      "\x7b\"points.dropped\":0,\"points.received\":5\x7d" :=
  ⟨by decide, buildAgentMetrics_exact sampleRegistry (by decide), by decide⟩

/-- C7: `buildAgentMetrics` is best-effort and total — for every registry
contents it returns a byte slice: the marshalling step in fact always
succeeds here, the code's error branch only logs and returns the (then
empty) bytes, and no error is ever propagated to the caller, as
`buildAgentMetrics` returning a plain byte string shows. -/
theorem buildAgentMetrics_total (r : Registry) :
    ∃ s, jsonMarshal (agentMap r) = Except.ok s ∧ buildAgentMetrics r = s := by
  refine ⟨_, jsonMarshal_agentMap_ok r, ?_⟩
  unfold buildAgentMetrics
  rw [jsonMarshal_agentMap_ok r]

end GoProxy

namespace GoProxy

/-! ## Port-list startup (C3, C4, C5) -/

/-- The loop of `startPointListeners` starts exactly the listeners of the
longest parseable leading run of entries and dies at the first rejected
entry. -/
theorem startPortEntries_eq (f : Flags) (sv : ApiService) (b : DecoderBuilder) :
    ∀ entries : List String,
      startPortEntries f sv b entries =
        ((entries.takeWhile portOk).map
            (fun e => startPointListener f sv ⟨(atoiGo e).1, b⟩),
         match entries.dropWhile portOk with
         | [] => none
         | e :: _ => some (ExitReason.invalidPort e)) := by
  intro entries
  induction entries with
  | nil => rfl
  | cons e rest ih =>
    by_cases hok : (atoiGo e).2 = true
    · have ht : portOk e = true := hok
      simp only [startPortEntries, hok, if_true, ih, List.takeWhile_cons, List.dropWhile_cons,
        ht, List.map_cons]
    · have ht : portOk e = false := by
        simp only [portOk]
        exact Bool.not_eq_true _ ▸ (Bool.eq_false_iff.mpr hok)
      simp only [startPortEntries, Bool.eq_false_iff.mpr hok, if_false, List.takeWhile_cons,
        List.dropWhile_cons, ht, List.map_cons]
      simp [hok]

/-- `startPointListeners` agrees with its claim-side description. -/
theorem startPointListeners_eq_spec (f : Flags) (sv : ApiService) (pl : String)
    (b : DecoderBuilder) :
    startPointListeners f sv pl b = specStartPorts f sv b pl := by
  unfold startPointListeners specStartPorts
  exact startPortEntries_eq f sv b (goSplit pl ',')

/-- `startListeners` agrees with its claim-side description. -/
theorem startListeners_eq_spec (f : Flags) (sv : ApiService) :
    startListeners f sv = specStartListeners f sv := by
  unfold startListeners specStartListeners
  rw [show (if f.pushListenerPorts ≠ "" then startPointListeners f sv f.pushListenerPorts .graphite
      else ([], none)) = (if f.pushListenerPorts ≠ "" then specStartPorts f sv .graphite f.pushListenerPorts
      else ([], none)) from by rw [startPointListeners_eq_spec],
    show (if f.opentsdbPorts ≠ "" then startPointListeners f sv f.opentsdbPorts .opentsdb
      else ([], none)) = (if f.opentsdbPorts ≠ "" then specStartPorts f sv .opentsdb f.opentsdbPorts
      else ([], none)) from by rw [startPointListeners_eq_spec]]

/-- The fatal component of the claim-side port startup is `none` exactly on
the empty list marker shape. -/
theorem matchDrop_none_iff (l : List String) :
    (match l with
     | [] => (none : Option ExitReason)
     | e :: _ => some (ExitReason.invalidPort e)) = none ↔ l = [] := by
  cases l <;> simp

/-- Port startup for one list is fatal-free iff `Atoi` accepts every entry. -/
theorem specStartPorts_none_iff (f : Flags) (sv : ApiService) (b : DecoderBuilder)
    (pl : String) :
    (specStartPorts f sv b pl).2 = none ↔ ∀ e ∈ goSplit pl ',', portOk e := by
  unfold specStartPorts
  dsimp only
  rw [matchDrop_none_iff, List.dropWhile_eq_nil_iff]

/-- When `Atoi` accepts every entry, one listener is started per entry. -/
theorem startPointListeners_all_ok (f : Flags) (sv : ApiService) (pl : String)
    (b : DecoderBuilder) (h : ∀ e ∈ goSplit pl ',', portOk e) :
    startPointListeners f sv pl b =
      ((goSplit pl ',').map (fun e => startPointListener f sv ⟨(atoiGo e).1, b⟩), none) := by
  rw [startPointListeners_eq_spec]
  unfold specStartPorts
  dsimp only
  rw [List.takeWhile_eq_self_iff.mpr h, List.dropWhile_eq_nil_iff.mpr h]

/-- The fatal component of listener startup splits over the two lists. -/
theorem specStartListeners_snd (f : Flags) (sv : ApiService) :
    (specStartListeners f sv).2 = none ↔
      ((if f.pushListenerPorts ≠ "" then specStartPorts f sv .graphite f.pushListenerPorts
        else ([], none)).2 = none ∧
       (if f.opentsdbPorts ≠ "" then specStartPorts f sv .opentsdb f.opentsdbPorts
        else ([], none)).2 = none) := by
  unfold specStartListeners
  dsimp only
  rcases hr : (if f.pushListenerPorts ≠ "" then
      specStartPorts f sv .graphite f.pushListenerPorts else ([], none)).2 with _ | e
  · simp [hr]
  · simp [hr]

/-- The guarded port startup for one list is fatal-free iff the list is
empty or every entry parses. -/
theorem ifPorts_none_iff (f : Flags) (sv : ApiService) (b : DecoderBuilder) (pl : String) :
    ((if pl ≠ "" then specStartPorts f sv b pl else ([], none)).2 = none) ↔
      (pl = "" ∨ ∀ e ∈ goSplit pl ',', portOk e) := by
  by_cases h : pl = ""
  · simp [h]
  · simp [h, specStartPorts_none_iff]

/-- Listener startup proceeds without a fatal error iff each port list is
empty or fully parseable. -/
theorem startListeners_none_iff (f : Flags) (sv : ApiService) :
    (startListeners f sv).2 = none ↔
      ((f.pushListenerPorts = "" ∨ ∀ e ∈ goSplit f.pushListenerPorts ',', portOk e) ∧
       (f.opentsdbPorts = "" ∨ ∀ e ∈ goSplit f.opentsdbPorts ',', portOk e)) := by
  rw [startListeners_eq_spec, specStartListeners_snd, ifPorts_none_iff, ifPorts_none_iff]

/-- With `-version` off and the config override successful, `checkFlags` is
the post-override check sequence on the effective flags. -/
theorem checkFlags_ok (f fe : Flags) (loadResult : Except Unit ProxyConfig)
    (osh : Except Unit String) (lg : Bool)
    (hver : f.versionFlag = false)
    (heff : effectiveFlags f loadResult = Except.ok fe) :
    checkFlags f loadResult osh lg = checkFlagsPost fe osh lg := by
  unfold checkFlags
  rw [hver]
  simp only [Bool.false_eq_true, if_false]
  rw [heff]
  rfl

/-- C3 (amended): startup configuration errors are fatal and no listener is
started past them — an empty effective token exits before any listener, an
empty effective server likewise, and a port-list entry that `strconv.Atoi`
rejects (not a decimal integer representable in a signed 64-bit int) is
fatal with exactly the listeners of the valid prefix already started (the
claim-side description); when the checks pass, startup proceeds without a
fatal exit if and only if each port list is empty or made of entries `Atoi`
accepts. -/
theorem startup_fatal_config_errors (f fe : Flags) (loadResult : Except Unit ProxyConfig)
    (osh : Except Unit String) (lg : Bool) (aid ver : String)
    (hver : f.versionFlag = false)
    (heff : effectiveFlags f loadResult = Except.ok fe) :
    (fe.token = "" →
      startup f loadResult osh lg aid ver = ([], some ExitReason.missingToken)) ∧
    (fe.token ≠ "" → fe.server = "" →
      startup f loadResult osh lg aid ver = ([], some ExitReason.missingServer)) ∧
    (∀ fh, checkFlags f loadResult osh lg = Except.ok fh →
      startup f loadResult osh lg aid ver =
        specStartListeners fh (mkApiService fh aid ver) ∧
      ((startup f loadResult osh lg aid ver).2 = none ↔
        ((fh.pushListenerPorts = "" ∨ ∀ e ∈ goSplit fh.pushListenerPorts ',', portOk e) ∧
         (fh.opentsdbPorts = "" ∨ ∀ e ∈ goSplit fh.opentsdbPorts ',', portOk e)))) := by
  have hcfeq := checkFlags_ok f fe loadResult osh lg hver heff
  refine ⟨?_, ?_, ?_⟩
  · intro htok
    have hpost : checkFlagsPost fe osh lg = Except.error ExitReason.missingToken := by
      unfold checkFlagsPost checkRequiredFlag
      rw [if_pos htok]
      rfl
    unfold startup
    rw [hcfeq, hpost]
  · intro htok hsrv
    have h1 : checkRequiredFlag fe.token ExitReason.missingToken = Except.ok () := by
      unfold checkRequiredFlag
      rw [if_neg htok]
    have h2 : checkRequiredFlag fe.server ExitReason.missingServer =
        Except.error ExitReason.missingServer := by
      unfold checkRequiredFlag
      rw [if_pos hsrv]
    have hpost : checkFlagsPost fe osh lg = Except.error ExitReason.missingServer := by
      unfold checkFlagsPost
      simp only [h1, h2]
      rfl
    unfold startup
    rw [hcfeq, hpost]
  · intro fh hfh
    have hstart : startup f loadResult osh lg aid ver =
        startListeners fh (mkApiService fh aid ver) := by
      unfold startup
      rw [hfh]
    constructor
    · rw [hstart, startListeners_eq_spec]
    · rw [hstart, startListeners_none_iff]

/-- A fully valid flag state: token and server set, two push ports and one
OpenTSDB port, no config file, no version flag. -/
def okFlags : Flags :=
  { cfg := ""
    token := "t"
    server := "s"
    hostname := "h"
    pushListenerPorts := "2878,2879"
    opentsdbPorts := "4242"
    flushThreads := 2
    flushInterval := 1000
    flushMaxPoints := 40000
    maxBufferSize := 100000
    idFile := ".wavefront_id"
    logFile := ""
    pprofAddr := ""
    versionFlag := false }

/-- The valid flag state with the push list replaced by a 20-digit decimal
entry, above the signed 64-bit range. -/
def badPortFlags : Flags :=
  { okFlags with pushListenerPorts := "99999999999999999999" }

/-- The api service built from the valid flag state. -/
def sv0 : ApiService :=
  { serverURL := "s"
    agentID := "id"
    hostname := "h"
    token := "t"
    version := "0.1" }

/-- C3 counterexample: with a non-empty token, a non-empty server, and every
port-list entry a decimal integer (the 20-digit push entry included),
startup still terminates fatally on that entry — `strconv.Atoi` returns a
range error for it — so the claim as stated, which only allows termination
when an entry is not a decimal integer, is false. -/
theorem startup_decimal_port_counterexample :
    badPortFlags.token ≠ "" ∧
    badPortFlags.server ≠ "" ∧
    (∀ e ∈ goSplit badPortFlags.pushListenerPorts ',', specDecimalInteger e = true) ∧
    (∀ e ∈ goSplit badPortFlags.opentsdbPorts ',', specDecimalInteger e = true) ∧
    startup badPortFlags (Except.error ()) (Except.ok "mh") true "id" "0.1" =
      ([], some (ExitReason.invalidPort "99999999999999999999")) := by
  refine ⟨by decide, by decide, by decide, by decide, by decide⟩

/-- Witness for C3 (amended) at the valid flag state. -/
theorem startup_fatal_config_errors_witness :
    (okFlags.versionFlag = false ∧
      effectiveFlags okFlags (Except.error ()) = Except.ok okFlags) ∧
    ((okFlags.token = "" →
        startup okFlags (Except.error ()) (Except.ok "mh") true "id" "0.1" =
          ([], some ExitReason.missingToken)) ∧
     (okFlags.token ≠ "" → okFlags.server = "" →
        startup okFlags (Except.error ()) (Except.ok "mh") true "id" "0.1" =
          ([], some ExitReason.missingServer)) ∧
     (∀ fh, checkFlags okFlags (Except.error ()) (Except.ok "mh") true = Except.ok fh →
        startup okFlags (Except.error ()) (Except.ok "mh") true "id" "0.1" =
          specStartListeners fh (mkApiService fh "id" "0.1") ∧
        ((startup okFlags (Except.error ()) (Except.ok "mh") true "id" "0.1").2 = none ↔
          ((fh.pushListenerPorts = "" ∨
              ∀ e ∈ goSplit fh.pushListenerPorts ',', portOk e) ∧
           (fh.opentsdbPorts = "" ∨
              ∀ e ∈ goSplit fh.opentsdbPorts ',', portOk e))))) :=
  ⟨⟨rfl, rfl⟩,
    startup_fatal_config_errors okFlags okFlags (Except.error ()) (Except.ok "mh") true
      "id" "0.1" rfl rfl⟩

/-- C4: whenever each port list is empty or fully `Atoi`-parseable, startup
creates and starts exactly one listener per entry of each non-empty list —
the push-listener entries with the Graphite decoder builder and then the
OpenTSDB entries with the OpenTSDB builder, each listener bound to its
entry's parsed port, in list order — and an empty list contributes no
listener for its protocol. -/
theorem startListeners_one_per_entry (f : Flags) (sv : ApiService)
    (hp : f.pushListenerPorts = "" ∨ ∀ e ∈ goSplit f.pushListenerPorts ',', portOk e)
    (ho : f.opentsdbPorts = "" ∨ ∀ e ∈ goSplit f.opentsdbPorts ',', portOk e) :
    (startListeners f sv).2 = none ∧
    (startListeners f sv).1 =
      (if f.pushListenerPorts = "" then [] else
        (goSplit f.pushListenerPorts ',').map
          (fun e => startPointListener f sv ⟨(atoiGo e).1, DecoderBuilder.graphite⟩)) ++
      (if f.opentsdbPorts = "" then [] else
        (goSplit f.opentsdbPorts ',').map
          (fun e => startPointListener f sv ⟨(atoiGo e).1, DecoderBuilder.opentsdb⟩)) := by
  refine ⟨(startListeners_none_iff f sv).mpr ⟨hp, ho⟩, ?_⟩
  unfold startListeners
  by_cases h1 : f.pushListenerPorts = ""
  · simp only [h1, ne_eq, not_true_eq_false, if_false, if_true]
    by_cases h2 : f.opentsdbPorts = ""
    · simp [h2]
    · have hall2 := ho.resolve_left h2
      simp only [h2, ne_eq, not_false_eq_true, if_true, if_false,
        startPointListeners_all_ok f sv f.opentsdbPorts .opentsdb hall2]
  · have hall1 := hp.resolve_left h1
    simp only [ne_eq, h1, not_false_eq_true, if_true, if_false,
      startPointListeners_all_ok f sv f.pushListenerPorts .graphite hall1]
    by_cases h2 : f.opentsdbPorts = ""
    · simp [h2]
    · have hall2 := ho.resolve_left h2
      simp only [h2, ne_eq, not_false_eq_true, if_true, if_false,
        startPointListeners_all_ok f sv f.opentsdbPorts .opentsdb hall2]

/-- Witness for C4 at the valid flag state: three listeners, ports 2878 and
2879 with the Graphite builder and 4242 with the OpenTSDB builder. -/
theorem startListeners_one_per_entry_witness :
    ((okFlags.pushListenerPorts = "" ∨
        ∀ e ∈ goSplit okFlags.pushListenerPorts ',', portOk e) ∧
     (okFlags.opentsdbPorts = "" ∨
        ∀ e ∈ goSplit okFlags.opentsdbPorts ',', portOk e)) ∧
    ((startListeners okFlags sv0).2 = none ∧
     (startListeners okFlags sv0).1 =
       (if okFlags.pushListenerPorts = "" then [] else
         (goSplit okFlags.pushListenerPorts ',').map
           (fun e => startPointListener okFlags sv0 ⟨(atoiGo e).1, DecoderBuilder.graphite⟩)) ++
       (if okFlags.opentsdbPorts = "" then [] else
         (goSplit okFlags.opentsdbPorts ',').map
           (fun e => startPointListener okFlags sv0 ⟨(atoiGo e).1, DecoderBuilder.opentsdb⟩))) :=
  ⟨⟨by decide, by decide⟩, startListeners_one_per_entry okFlags sv0 (by decide) (by decide)⟩

/-- Any start call issued through the guarded claim-side port startup comes
from `startPointListener`. -/
theorem mem_specStartPorts_if (f : Flags) (sv : ApiService) (b : DecoderBuilder)
    (pl : String) (c : Prop) [Decidable c] (s : StartCall)
    (hs : s ∈ ((if c then specStartPorts f sv b pl else ([], none)) :
      List StartCall × Option ExitReason).1) :
    ∃ l, s = startPointListener f sv l := by
  rcases Decidable.em c with hc | hc
  · rw [if_pos hc] at hs
    unfold specStartPorts at hs
    dsimp only at hs
    obtain ⟨e, _, he⟩ := List.mem_map.mp hs
    exact ⟨_, he.symm⟩
  · rw [if_neg hc] at hs
    cases hs

/-- C5: every listener started by `startListeners`, whatever its protocol or
port, receives the same four configuration numbers — flush thread count,
flush interval, max buffer size, max points per flush — from the effective
flags, together with the Graphite v2 outbound wire format, the Graphite
block work unit, and the one api service. -/
theorem startListeners_common_config (f : Flags) (sv : ApiService) (s : StartCall)
    (hs : s ∈ (startListeners f sv).1) :
    s.flushThreads = f.flushThreads ∧ s.flushInterval = f.flushInterval ∧
    s.maxBufferSize = f.maxBufferSize ∧ s.maxPointsPerFlush = f.flushMaxPoints ∧
    s.format = WireFormat.graphiteV2 ∧ s.workUnit = WorkUnitKind.graphiteBlock ∧
    s.service = sv := by
  have hl : ∃ l, s = startPointListener f sv l := by
    rw [startListeners_eq_spec] at hs
    unfold specStartListeners at hs
    dsimp only at hs
    rcases hr : (if f.pushListenerPorts ≠ "" then
        specStartPorts f sv .graphite f.pushListenerPorts else ([], none)).2 with _ | e
    · rw [hr] at hs
      dsimp only at hs
      rcases List.mem_append.mp hs with h | h
      · exact mem_specStartPorts_if f sv .graphite f.pushListenerPorts _ s h
      · exact mem_specStartPorts_if f sv .opentsdb f.opentsdbPorts _ s h
    · rw [hr] at hs
      dsimp only at hs
      exact mem_specStartPorts_if f sv .graphite f.pushListenerPorts _ s hs
  obtain ⟨l, rfl⟩ := hl
  exact ⟨rfl, rfl, rfl, rfl, rfl, rfl, rfl⟩

/-- Witness for C5 at the valid flag state and the port-2878 listener. -/
theorem startListeners_common_config_witness :
    (startPointListener okFlags sv0 ⟨2878, DecoderBuilder.graphite⟩ ∈
      (startListeners okFlags sv0).1) ∧
    ((startPointListener okFlags sv0 ⟨2878, DecoderBuilder.graphite⟩).flushThreads =
        okFlags.flushThreads ∧
     (startPointListener okFlags sv0 ⟨2878, DecoderBuilder.graphite⟩).flushInterval =
        okFlags.flushInterval ∧
     (startPointListener okFlags sv0 ⟨2878, DecoderBuilder.graphite⟩).maxBufferSize =
        okFlags.maxBufferSize ∧
     (startPointListener okFlags sv0 ⟨2878, DecoderBuilder.graphite⟩).maxPointsPerFlush =
        okFlags.flushMaxPoints ∧
     (startPointListener okFlags sv0 ⟨2878, DecoderBuilder.graphite⟩).format =
        WireFormat.graphiteV2 ∧
     (startPointListener okFlags sv0 ⟨2878, DecoderBuilder.graphite⟩).workUnit =
        WorkUnitKind.graphiteBlock ∧
     (startPointListener okFlags sv0 ⟨2878, DecoderBuilder.graphite⟩).service = sv0) :=
  ⟨by decide, startListeners_common_config okFlags sv0 _ (by decide)⟩

end GoProxy
